import Mathlib

/-!
Verification of the benchmark scoring pipeline of `src/static/app.js`
(osalzberg/azureagentexplenations).

The JavaScript source is shallowly embedded: JS numbers are modelled as `ℚ`,
JS strings as `String`, JS objects with a fixed key set as structures, objects
with possibly-missing keys as structures of `Option` fields, and the remote
`fetch` collaborators as explicit oracle functions passed as parameters
(`Except` models a failed / error-bearing response).  `Math.random()` draws are
passed in as an explicit stream of rationals.  Sequential `await` loops are
modelled as structural recursions that thread the loop counters
(`completedSteps`, the placeholder-draw index) explicitly; DOM reads/writes
(progress bar, toasts, chart) are modelled as an emitted log of progress pairs
and of collaborator-call payloads.
-/

namespace LogBench

/-- The seven scoring dimensions used throughout `app.js`
(`getPlaceholderScores`, `calculateWeightedTotal`, `processBulkResults`).
`structure'` stands for the JS key `structure` (a Lean keyword). -/
inductive Dimension
  | faithfulness
  | structure'
  | clarity
  | analysisDepth
  | contextAccuracy
  | actionability
  | conciseness
deriving DecidableEq, Fintype, Repr

/-- The dimensions in the key order of the JS weight objects. -/
def Dimension.all : List Dimension :=
  [.faithfulness, .structure', .clarity, .analysisDepth, .contextAccuracy,
   .actionability, .conciseness]

/-- A JS scores object: each of the seven dimension keys may be present or
absent (`undefined`).  Extra presentation-only keys (`individualJudges`) are
not modelled. -/
structure ScoreVec where
  faithfulness : Option ℚ
  structure' : Option ℚ
  clarity : Option ℚ
  analysisDepth : Option ℚ
  contextAccuracy : Option ℚ
  actionability : Option ℚ
  conciseness : Option ℚ
deriving DecidableEq, Repr

/-- Key lookup `scores[dim]` on a scores object. -/
def ScoreVec.get (s : ScoreVec) : Dimension → Option ℚ
  | .faithfulness => s.faithfulness
  | .structure' => s.structure'
  | .clarity => s.clarity
  | .analysisDepth => s.analysisDepth
  | .contextAccuracy => s.contextAccuracy
  | .actionability => s.actionability
  | .conciseness => s.conciseness

/-- A JS weight object: all seven dimension keys present
(`calculateWeightedTotal`'s inline `weights`, and the global
`currentWeights`). -/
structure Weights where
  faithfulness : ℚ
  structure' : ℚ
  clarity : ℚ
  analysisDepth : ℚ
  contextAccuracy : ℚ
  actionability : ℚ
  conciseness : ℚ
deriving DecidableEq, Repr

/-- Key lookup `weights[dim]` on a weight object. -/
def Weights.get (w : Weights) : Dimension → ℚ
  | .faithfulness => w.faithfulness
  | .structure' => w.structure'
  | .clarity => w.clarity
  | .analysisDepth => w.analysisDepth
  | .contextAccuracy => w.contextAccuracy
  | .actionability => w.actionability
  | .conciseness => w.conciseness

/-- The weight literal hard-coded inside `calculateWeightedTotal`
(app.js:1179-1187). -/
def benchmarkWeights : Weights :=
  { faithfulness := 0.25
    structure' := 0.10
    clarity := 0.15
    analysisDepth := 0.20
    contextAccuracy := 0.15
    actionability := 0.10
    conciseness := 0.05 }

/-- The initial value of the mutable global `currentWeights`
(app.js:1564-1572, integer percentages). -/
def currentWeightsInit : Weights :=
  { faithfulness := 25
    structure' := 10
    clarity := 15
    analysisDepth := 20
    contextAccuracy := 15
    actionability := 10
    conciseness := 5 }

/-- `calculateWeightedTotal(scores)` (app.js:1178-1192):
`Object.keys(weights).reduce((total, key) => total + (scores[key] || 0) * weights[key], 0)`.
A missing (or zero) score contributes `0`; there is no renormalization. -/
def calculateWeightedTotal (scores : ScoreVec) : ℚ :=
  (Dimension.all.map (fun d => ((scores.get d).getD 0) * benchmarkWeights.get d)).sum

/-- The `total` accumulator of `calculateWeightedScore` (app.js:1958-1970):
only dimensions present in `scores` contribute. -/
def weightedScoreTotal (scores : ScoreVec) (w : Weights) : ℚ :=
  (Dimension.all.map (fun d =>
    match scores.get d with
    | some v => v * w.get d
    | none => 0)).sum

/-- The `weightSum` accumulator of `calculateWeightedScore` (app.js:1958-1970):
the sum of the weights of the dimensions present in `scores`. -/
def weightedScoreWeightSum (scores : ScoreVec) (w : Weights) : ℚ :=
  (Dimension.all.map (fun d =>
    match scores.get d with
    | some _ => w.get d
    | none => 0)).sum

/-- `calculateWeightedScore(scores)` (app.js:1958-1970), with the mutable
global `currentWeights` passed explicitly:
`return weightSum > 0 ? total / weightSum : 0`. -/
def calculateWeightedScore (scores : ScoreVec) (w : Weights) : ℚ :=
  if weightedScoreWeightSum scores w > 0 then
    weightedScoreTotal scores w / weightedScoreWeightSum scores w
  else 0

/-- `getPlaceholderScores()` (app.js:1166-1176): each dimension is
`Math.random() * 2 + 3`; the draw for each dimension is supplied by `r`. -/
def getPlaceholderScores (r : Dimension → ℚ) : ScoreVec :=
  { faithfulness := some (r .faithfulness * 2 + 3)
    structure' := some (r .structure' * 2 + 3)
    clarity := some (r .clarity * 2 + 3)
    analysisDepth := some (r .analysisDepth * 2 + 3)
    contextAccuracy := some (r .contextAccuracy * 2 + 3)
    actionability := some (r .actionability * 2 + 3)
    conciseness := some (r .conciseness * 2 + 3) }

/-- Written from the spec's words (§4.3 / claim C1), for refinement
comparison only: "total = Σ(weight[d] × score[d]) over dimensions present in
the score vector, divided by the sum of weights for dimensions actually
present". -/
def specRenormalizedTotal (scores : ScoreVec) (w : Weights) : ℚ :=
  (Dimension.all.map (fun d =>
    match scores.get d with
    | some v => w.get d * v
    | none => 0)).sum /
  (Dimension.all.map (fun d =>
    match scores.get d with
    | some _ => w.get d
    | none => 0)).sum

lemma getPlaceholderScores_get (r : Dimension → ℚ) (d : Dimension) :
    (getPlaceholderScores r).get d = some (r d * 2 + 3) := by
  cases d <;> rfl

lemma weightedScoreWeightSum_eq_spec_denom (s : ScoreVec) (w : Weights) :
    weightedScoreWeightSum s w =
      (Dimension.all.map (fun d =>
        match s.get d with
        | some _ => w.get d
        | none => 0)).sum := rfl

lemma weightedScoreWeightSum_nonneg (s : ScoreVec) (w : Weights)
    (hw : ∀ d, 0 ≤ w.get d) : 0 ≤ weightedScoreWeightSum s w := by
  apply List.sum_nonneg
  intro x hx
  simp only [List.mem_map] at hx
  obtain ⟨d, -, rfl⟩ := hx
  cases s.get d
  · exact le_refl 0
  · exact hw d

section Sorting

variable {α : Type _}

/-- One insertion step of the stable descending sort.  `x` is placed before
the first element whose key is `≤` its own, so an element keeps its place
relative to equal-keyed elements that originally came after it. -/
def insertDesc (key : α → ℚ) (x : α) : List α → List α
  | [] => [x]
  | y :: ys => if key y ≤ key x then x :: y :: ys else y :: insertDesc key x ys

/-- The embedding of `list.sort((a, b) => key(b) - key(a))`: JS `Array.sort`
is stable (ES2019), and a stable descending sort is unique, so it is modelled
as the stable insertion sort descending on `key`. -/
def sortByDesc (key : α → ℚ) : List α → List α
  | [] => []
  | x :: xs => insertDesc key x (sortByDesc key xs)

lemma insertDesc_perm (key : α → ℚ) (x : α) :
    ∀ l : List α, (insertDesc key x l).Perm (x :: l)
  | [] => List.Perm.refl _
  | y :: ys => by
    rw [insertDesc]
    split
    · exact List.Perm.refl _
    · exact ((insertDesc_perm key x ys).cons y).trans (List.Perm.swap x y ys)

lemma sortByDesc_perm (key : α → ℚ) :
    ∀ l : List α, (sortByDesc key l).Perm l
  | [] => List.Perm.refl _
  | x :: xs =>
    (insertDesc_perm key x (sortByDesc key xs)).trans
      ((sortByDesc_perm key xs).cons x)

lemma insertDesc_pairwise (key : α → ℚ) (x : α) (l : List α)
    (h : l.Pairwise (fun a b => key b ≤ key a)) :
    (insertDesc key x l).Pairwise (fun a b => key b ≤ key a) := by
  induction l with
  | nil => simp [insertDesc]
  | cons y ys ih =>
    rw [insertDesc]
    rcases h with - | ⟨hy, hys⟩
    by_cases hyx : key y ≤ key x
    · rw [if_pos hyx]
      refine List.Pairwise.cons ?_ (List.Pairwise.cons hy hys)
      intro z hz
      rcases List.mem_cons.mp hz with rfl | hz
      · exact hyx
      · exact le_trans (hy z hz) hyx
    · rw [if_neg hyx]
      refine List.Pairwise.cons ?_ (ih hys)
      intro z hz
      rcases List.mem_cons.mp ((insertDesc_perm key x ys).mem_iff.mp hz) with rfl | hz'
      · exact le_of_not_le hyx
      · exact hy z hz'

lemma sortByDesc_pairwise (key : α → ℚ) :
    ∀ l : List α, (sortByDesc key l).Pairwise (fun a b => key b ≤ key a)
  | [] => List.Pairwise.nil
  | x :: xs => insertDesc_pairwise key x _ (sortByDesc_pairwise key xs)

lemma insertDesc_filter_key (key : α → ℚ) (x : α) (c : ℚ) (l : List α) :
    (insertDesc key x l).filter (fun y => decide (key y = c)) =
      if key x = c then x :: l.filter (fun y => decide (key y = c))
      else l.filter (fun y => decide (key y = c)) := by
  induction l with
  | nil => by_cases hx : key x = c <;> simp [insertDesc, List.filter, hx]
  | cons y ys ih =>
    rw [insertDesc]
    by_cases hyx : key y ≤ key x
    · rw [if_pos hyx]
      by_cases hx : key x = c
      · simp [List.filter, hx]
      · simp [List.filter, hx]
    · rw [if_neg hyx]
      have hxy : key x < key y := lt_of_not_le hyx
      by_cases hx : key x = c
      · have hy : ¬ key y = c := by
          intro h
          exact absurd (hx ▸ h ▸ hxy) (lt_irrefl _)
        simp [List.filter, hy, hx, ih]
      · by_cases hy : key y = c
        · simp [List.filter, hy, hx, ih]
        · simp [List.filter, hy, hx, ih]

/-- Stability of `sortByDesc`: elements with any fixed key value keep their
original relative order. -/
lemma sortByDesc_filter_key (key : α → ℚ) (c : ℚ) :
    ∀ l : List α,
      (sortByDesc key l).filter (fun y => decide (key y = c)) =
        l.filter (fun y => decide (key y = c))
  | [] => rfl
  | x :: xs => by
    rw [sortByDesc, insertDesc_filter_key, sortByDesc_filter_key key c xs]
    by_cases hx : key x = c
    · simp [List.filter, hx]
    · simp [List.filter, hx]

end Sorting

/-! ## Single-query benchmark (`runBenchmark`, app.js:979-1198) -/

/-- A result table (`currentResults.tables[0]`): column names and rows of
cell values (cells modelled as strings). -/
structure Table where
  columns : List String
  rows : List (List String)
deriving DecidableEq, Repr

/-- A test case (app.js:1006-1018), with the nested `results` object
flattened into `columns`/`rows`.  `expectedInsights`/`criticalErrors` are
always `[]` there and are omitted. -/
structure TestCase where
  id : String
  name : String
  description : String
  audience : String
  query : String
  columns : List String
  rows : List (List String)
deriving DecidableEq, Repr

/-- The JSON body of the `/api/explain` request built by
`getModelExplanation` (app.js:1095-1105).  The constant table name
`'Result'` is omitted. -/
structure ExplainPayload where
  query : String
  columns : List String
  rows : List (List String)
  rowCount : ℕ
  totalRows : ℕ
  model : String
deriving DecidableEq, Repr

/-- The JSON body of the `/api/benchmark/evaluate` request built by
`evaluateWithLLM` (app.js:1142-1146). -/
structure EvalPayload where
  explanation : String
  testCase : TestCase
  targetAudience : String
deriving DecidableEq, Repr

/-- `s.substring(0, n)` on a JS string. -/
def substringTo (s : String) (n : ℕ) : String :=
  String.mk (s.data.take n)

/-- The explanation truncation in `evaluateWithLLM` (app.js:1126-1128):
`explanation.length > 3000 ? explanation.substring(0, 3000) + '... [truncated]' : explanation`. -/
def truncateExplanation (e : String) : String :=
  if e.length > 3000 then substringTo e 3000 ++ "... [truncated]" else e

/-- The `/api/explain` payload for one model (app.js:1095-1105): rows limited
to the first 10, `row_count`/`total_rows` from the (already capped) test-case
row list. -/
def explainPayloadFor (tc : TestCase) (modelId : String) : ExplainPayload :=
  { query := tc.query
    columns := tc.columns
    rows := tc.rows.take 10
    rowCount := tc.rows.length
    totalRows := tc.rows.length
    model := modelId }

/-- `getModelExplanation(modelId, testCase)` (app.js:1087-1118).  The oracle
`explainO` stands for the remote call: `.error` is a thrown/timeout error
(caught and turned into an `'Error: ...'` string), `.ok none` a response with
no `explanation` field (`result.explanation || 'Error generating explanation'`).
The timeout message is one possible `'Error: ...'` string, so both failure
modes are covered by the `.error` case. -/
def getModelExplanation (explainO : ExplainPayload → Except String (Option String))
    (modelId : String) (tc : TestCase) : String :=
  match explainO (explainPayloadFor tc modelId) with
  | .ok (some e) => e
  | .ok none => "Error generating explanation"
  | .error msg => "Error: " ++ msg

/-- The `/api/benchmark/evaluate` payload (app.js:1130-1146): truncated
explanation, and the test case with only the first 5 rows
(`limitedTestCase`). -/
def evalPayloadFor (explanation : String) (tc : TestCase) (audience : String) :
    EvalPayload :=
  { explanation := truncateExplanation explanation
    testCase := { tc with rows := tc.rows.take 5 }
    targetAudience := audience }

/-- `evaluateWithLLM(explanation, testCase, targetAudience)`
(app.js:1120-1164).  `.error` covers a thrown/timeout error, `.ok none` a
response without `scores` (`result.scores || getPlaceholderScores()`); both
fall back to `getPlaceholderScores` with the supplied random draws `r`.
The display-only `individualJudges` attachment is omitted. -/
def evaluateWithLLM (evalO : EvalPayload → Except String (Option ScoreVec))
    (r : Dimension → ℚ) (explanation : String) (tc : TestCase)
    (audience : String) : ScoreVec :=
  match evalO (evalPayloadFor explanation tc audience) with
  | .ok (some s) => s
  | .ok none => getPlaceholderScores r
  | .error _ => getPlaceholderScores r

/-- One element of `benchmarkResults` (app.js:1071-1077). -/
structure BenchResult where
  model : String
  modelName : String
  explanation : String
  scores : ScoreVec
  weightedTotal : ℚ
deriving DecidableEq, Repr

/-- The body of one iteration of the model loop in `runBenchmark`
(app.js:1046-1081): generate the explanation, evaluate it (LLM judge or
placeholder), and build the pushed result.  `k` is the 0-based loop index;
`rand k` supplies the iteration's `Math.random()` draws. -/
def benchResultFor (explainO : ExplainPayload → Except String (Option String))
    (evalO : EvalPayload → Except String (Option ScoreVec))
    (rand : ℕ → Dimension → ℚ) (useLLMJudge : Bool) (audience : String)
    (modelName : String → String) (tc : TestCase) (k : ℕ) (m : String) :
    BenchResult :=
  let explanation := getModelExplanation explainO m tc
  let scores :=
    if useLLMJudge then evaluateWithLLM evalO (rand k) explanation tc audience
    else getPlaceholderScores (rand k)
  { model := m
    modelName := modelName m
    explanation := explanation
    scores := scores
    weightedTotal := calculateWeightedTotal scores }

/-- Everything a single-query run produces or emits: the accumulated
`benchmarkResults`, the progress-bar updates `(completedSteps, totalSteps)`,
and the payloads of the remote calls in the order they were issued. -/
structure SingleLog where
  results : List BenchResult
  progress : List (ℕ × ℕ)
  explainCalls : List ExplainPayload
  evalCalls : List EvalPayload
deriving DecidableEq, Repr

/-- The sequential model loop of `runBenchmark` (app.js:1046-1081).  The
mutable `completedSteps` counter is threaded as `2*k` (it is incremented to
`2*k+1` before the generate step and to `2*k+2` before the evaluate step of
iteration `k`); the `await` of each remote call is the oracle application. -/
def benchLoop (explainO : ExplainPayload → Except String (Option String))
    (evalO : EvalPayload → Except String (Option ScoreVec))
    (rand : ℕ → Dimension → ℚ) (useLLMJudge : Bool) (audience : String)
    (modelName : String → String) (tc : TestCase) (totalSteps : ℕ) :
    ℕ → List String → SingleLog
  | _, [] => { results := [], progress := [], explainCalls := [], evalCalls := [] }
  | k, m :: ms =>
    let rest := benchLoop explainO evalO rand useLLMJudge audience modelName tc
      totalSteps (k + 1) ms
    let r := benchResultFor explainO evalO rand useLLMJudge audience modelName tc k m
    let evCalls :=
      if useLLMJudge then
        [evalPayloadFor (getModelExplanation explainO m tc) tc audience]
      else []
    { results := r :: rest.results
      progress := (2 * k + 1, totalSteps) :: (2 * k + 2, totalSteps) :: rest.progress
      explainCalls := explainPayloadFor tc m :: rest.explainCalls
      evalCalls := evCalls ++ rest.evalCalls }

/-- The configuration rejections of `runBenchmark` (app.js:981-998), each
surfaced as a toast and an immediate `return` before any remote call. -/
inductive BenchError
  | noResults
  | noModels
  | tooFewModels
deriving DecidableEq, Repr

/-- The test case `runBenchmark` builds from the current query results
(app.js:1003-1018), rows capped at `maxRows = 10`. -/
def currentTestCase (q : String) (table : Table) (audience : String) :
    TestCase :=
  { id := "current"
    name := "Current Query"
    description := "Your query results"
    audience := audience
    query := q
    columns := table.columns
    rows := table.rows.take 10 }

/-- The post-guard part of `runBenchmark` (app.js:1003-1084): build the test
case from the current query results with rows capped at 10, set
`totalSteps = selectedModels.length * 2`, and run the model loop. -/
def runBenchmarkOk (q : String) (table : Table) (models : List String)
    (useLLMJudge : Bool) (audience : String) (modelName : String → String)
    (explainO : ExplainPayload → Except String (Option String))
    (evalO : EvalPayload → Except String (Option ScoreVec))
    (rand : ℕ → Dimension → ℚ) : SingleLog :=
  benchLoop explainO evalO rand useLLMJudge audience modelName
    (currentTestCase q table audience) (models.length * 2) 0 models

/-- `runBenchmark()` (app.js:979-1085).  `currentQuery`/`currentTable` model
the global state read at app.js:981 (`none` when absent); `useLLMJudge` is
`evaluationMethod === 'llm-judge'`; `modelName` models the
`availableModels.find(...)` display-name lookup. -/
def runBenchmark (currentQuery : Option String) (currentTable : Option Table)
    (models : List String) (useLLMJudge : Bool) (audience : String)
    (modelName : String → String)
    (explainO : ExplainPayload → Except String (Option String))
    (evalO : EvalPayload → Except String (Option ScoreVec))
    (rand : ℕ → Dimension → ℚ) : Except BenchError SingleLog :=
  match currentQuery, currentTable with
  | some q, some table =>
    if models.length = 0 then .error .noModels
    else if models.length < 2 then .error .tooFewModels
    else .ok (runBenchmarkOk q table models useLLMJudge audience modelName
      explainO evalO rand)
  | _, _ => .error .noResults

/-- The ranking step of `renderBenchmarkResults` (app.js:1197-1198):
`benchmarkResults.sort((a, b) => b.weightedTotal - a.weightedTotal)`. -/
def renderBenchmarkRanking (l : List BenchResult) : List BenchResult :=
  sortByDesc (fun r => r.weightedTotal) l

/-! ## Bulk benchmark (`runBulkBenchmark`, app.js:1738-1970) -/

/-- Whitespace as removed by JS `String.prototype.trim` (the whitespace
characters occurring in this model). -/
def isJsSpace (c : Char) : Bool :=
  c = ' ' || c = '\t' || c = '\n' || c = '\r'

/-- `s.trim()` on a JS string. -/
def jsTrim (s : String) : String :=
  String.mk (((s.data.dropWhile isJsSpace).reverse.dropWhile isJsSpace).reverse)

/-- One collected bulk query (app.js:1743-1753): its 1-based position and its
trimmed text.  The DOM element id is not modelled. -/
structure QueryData where
  index : ℕ
  query : String
deriving DecidableEq, Repr

/-- The query collection loop of `runBulkBenchmark` (app.js:1740-1753):
every textarea with non-blank trimmed text, with `index = idx + 1`. -/
def parseQueries (queryTexts : List String) : List QueryData :=
  queryTexts.enum.filterMap (fun p =>
    if jsTrim p.2 = "" then none
    else some { index := p.1 + 1, query := jsTrim p.2 })

/-- The (uninterpreted) `tables` value returned by `/api/query` and passed
through verbatim to the explain/evaluate calls. -/
abbrev Tables : Type := List Table

/-- The JSON body of the bulk `/api/query` request (app.js:1804-1812). -/
structure QueryPayload where
  workspaceId : String
  query : String
  timespanHours : ℤ
deriving DecidableEq, Repr

/-- The JSON body of the bulk `/api/explain` request (app.js:1826-1834):
the query, the query result tables passed through unmodified, and the model
id. -/
structure BulkExplainPayload where
  query : String
  tables : Tables
  model : String
deriving DecidableEq, Repr

/-- The JSON body of the bulk `/api/benchmark/evaluate` request
(app.js:1845-1854): query, unmodified tables, the explanation exactly as
returned by the explain call, and the audience. -/
structure BulkEvalPayload where
  query : String
  tables : Tables
  explanation : String
  audience : String
deriving DecidableEq, Repr

/-- One element pushed onto `modelResults[modelId].queries`
(app.js:1862-1875): either `{queryIndex, query, explanation, scores}` on
success (`scores` may still be absent from the response) or
`{queryIndex, query, error}` on failure. -/
structure BulkQueryEntry where
  queryIndex : ℕ
  query : String
  explanation : Option String
  scores : Option ScoreVec
  error : Option String
deriving DecidableEq, Repr

/-- The success entry pushed at app.js:1862-1867. -/
def okEntry (qd : QueryData) (explanation : String) (scores : Option ScoreVec) :
    BulkQueryEntry :=
  { queryIndex := qd.index, query := qd.query, explanation := some explanation
    scores := scores, error := none }

/-- The error entry pushed at app.js:1871-1875. -/
def errEntry (qd : QueryData) (msg : String) : BulkQueryEntry :=
  { queryIndex := qd.index, query := qd.query, explanation := none
    scores := none, error := some msg }

/-- The entry recorded for one (query, model) pair by the inner try/catch of
`runBulkBenchmark` (app.js:1824-1876): explain, then evaluate, each failure
caught and recorded as an error entry.  `explainO`'s `.error` covers both a
rejected fetch and a response with an `error` field; `evalO`'s `.ok none` is
a successful response without `scores`. -/
def bulkPairEntry (explainO : BulkExplainPayload → Except String String)
    (evalO : BulkEvalPayload → Except String (Option ScoreVec))
    (audience : String) (qd : QueryData) (tables : Tables) (m : String) :
    BulkQueryEntry :=
  match explainO { query := qd.query, tables := tables, model := m } with
  | .error msg => errEntry qd msg
  | .ok expl =>
    match evalO { query := qd.query, tables := tables, explanation := expl,
                  audience := audience } with
    | .error msg => errEntry qd msg
    | .ok oscores => okEntry qd expl oscores

/-- Everything a bulk run records or emits: the pushes onto
`modelResults[modelId].queries` in execution order (tagged with the model
id), the `updateBulkProgress` emissions `(completedSteps, totalSteps)`, and
the payloads of the remote calls in issue order. -/
structure BulkLog where
  entries : List (String × BulkQueryEntry)
  progress : List (ℕ × ℕ)
  queryCalls : List QueryPayload
  explainCalls : List BulkExplainPayload
  evalCalls : List BulkEvalPayload
deriving DecidableEq, Repr

/-- The inner model loop of `runBulkBenchmark` for one successful query
(app.js:1821-1880), threading `completedSteps` as `c0`.  Per pair it emits
progress with the current `completedSteps` before the explain call, again
(only) after a successful explain, then increments and emits once more. -/
def bulkModelsRun (explainO : BulkExplainPayload → Except String String)
    (evalO : BulkEvalPayload → Except String (Option ScoreVec))
    (audience : String) (totalSteps : ℕ) (qd : QueryData) (tables : Tables) :
    ℕ → List String → BulkLog
  | _, [] =>
    { entries := [], progress := [], queryCalls := [], explainCalls := [],
      evalCalls := [] }
  | c0, m :: ms =>
    let rest := bulkModelsRun explainO evalO audience totalSteps qd tables
      (c0 + 1) ms
    let ep : BulkExplainPayload := { query := qd.query, tables := tables, model := m }
    match explainO ep with
    | .error msg =>
      { entries := (m, errEntry qd msg) :: rest.entries
        progress := (c0, totalSteps) :: (c0 + 1, totalSteps) :: rest.progress
        queryCalls := rest.queryCalls
        explainCalls := ep :: rest.explainCalls
        evalCalls := rest.evalCalls }
    | .ok expl =>
      let vp : BulkEvalPayload :=
        { query := qd.query, tables := tables, explanation := expl,
          audience := audience }
      match evalO vp with
      | .error msg =>
        { entries := (m, errEntry qd msg) :: rest.entries
          progress :=
            (c0, totalSteps) :: (c0, totalSteps) :: (c0 + 1, totalSteps) :: rest.progress
          queryCalls := rest.queryCalls
          explainCalls := ep :: rest.explainCalls
          evalCalls := vp :: rest.evalCalls }
      | .ok oscores =>
        { entries := (m, okEntry qd expl oscores) :: rest.entries
          progress :=
            (c0, totalSteps) :: (c0, totalSteps) :: (c0 + 1, totalSteps) :: rest.progress
          queryCalls := rest.queryCalls
          explainCalls := ep :: rest.explainCalls
          evalCalls := vp :: rest.evalCalls }

/-- The outer query loop of `runBulkBenchmark` (app.js:1793-1893): run the
query; on failure mark the query element and move on (no entries, no
progress for its pairs); on success run every model.  `completedSteps` only
advances for pairs of successful queries. -/
def bulkQueriesRun (queryO : QueryPayload → Except String Tables)
    (explainO : BulkExplainPayload → Except String String)
    (evalO : BulkEvalPayload → Except String (Option ScoreVec))
    (workspaceId : String) (timespanHours : ℤ) (audience : String)
    (models : List String) (totalSteps : ℕ) :
    ℕ → List QueryData → BulkLog
  | _, [] =>
    { entries := [], progress := [], queryCalls := [], explainCalls := [],
      evalCalls := [] }
  | c0, qd :: qs =>
    let qp : QueryPayload :=
      { workspaceId := workspaceId, query := qd.query,
        timespanHours := timespanHours }
    match queryO qp with
    | .error _ =>
      let rest := bulkQueriesRun queryO explainO evalO workspaceId
        timespanHours audience models totalSteps c0 qs
      { entries := rest.entries
        progress := rest.progress
        queryCalls := qp :: rest.queryCalls
        explainCalls := rest.explainCalls
        evalCalls := rest.evalCalls }
    | .ok tables =>
      let inner := bulkModelsRun explainO evalO audience totalSteps qd tables
        c0 models
      let rest := bulkQueriesRun queryO explainO evalO workspaceId
        timespanHours audience models totalSteps (c0 + models.length) qs
      { entries := inner.entries ++ rest.entries
        progress := inner.progress ++ rest.progress
        queryCalls := qp :: rest.queryCalls
        explainCalls := inner.explainCalls ++ rest.explainCalls
        evalCalls := inner.evalCalls ++ rest.evalCalls }

/-- One value of the `modelResults` object (app.js:1782-1790). -/
structure ModelBulkData where
  model : String
  modelName : String
  queries : List BulkQueryEntry
deriving DecidableEq, Repr

/-- The result of a bulk run that passed the guards: the `modelResults`
object (one entry per selected model, in selection order — model ids are
distinct checkbox values) and the emitted logs. -/
structure BulkRunOutput where
  modelResults : List ModelBulkData
  progress : List (ℕ × ℕ)
  queryCalls : List QueryPayload
  explainCalls : List BulkExplainPayload
  evalCalls : List BulkEvalPayload
deriving DecidableEq, Repr

/-- The guard rejections of `runBulkBenchmark` (app.js:1755-1770), each a
toast and an immediate `return`. -/
inductive BulkError
  | noQueries
  | noModels
  | noWorkspace
deriving DecidableEq, Repr

/-- The post-guard part of `runBulkBenchmark` (app.js:1772-1898):
`totalSteps = queries.length * selectedModels.length`, run the query loop,
and read each model's pushed entries back out of the shared log. -/
def runBulkOk (queries : List QueryData) (models : List String)
    (workspaceId : String) (timespanHours : ℤ) (audience : String)
    (modelName : String → String)
    (queryO : QueryPayload → Except String Tables)
    (explainO : BulkExplainPayload → Except String String)
    (evalO : BulkEvalPayload → Except String (Option ScoreVec)) :
    BulkRunOutput :=
  let totalSteps := queries.length * models.length
  let log := bulkQueriesRun queryO explainO evalO workspaceId timespanHours
    audience models totalSteps 0 queries
  { modelResults := models.map (fun m =>
      { model := m
        modelName := modelName m
        queries := (log.entries.filter (fun p => decide (p.1 = m))).map Prod.snd })
    progress := log.progress
    queryCalls := log.queryCalls
    explainCalls := log.explainCalls
    evalCalls := log.evalCalls }

/-- `runBulkBenchmark()` (app.js:1738-1898): collect non-blank queries,
reject zero queries, zero selected models, or a blank workspace id, then run
every (query, model) pair. -/
def runBulkBenchmark (queryTexts models : List String) (workspaceIdRaw : String)
    (timespanHours : ℤ) (audience : String) (modelName : String → String)
    (queryO : QueryPayload → Except String Tables)
    (explainO : BulkExplainPayload → Except String String)
    (evalO : BulkEvalPayload → Except String (Option ScoreVec)) :
    Except BulkError BulkRunOutput :=
  let queries := parseQueries queryTexts
  if queries.length = 0 then .error .noQueries
  else if models.length = 0 then .error .noModels
  else if jsTrim workspaceIdRaw = "" then .error .noWorkspace
  else .ok (runBulkOk queries models (jsTrim workspaceIdRaw) timespanHours
    audience modelName queryO explainO evalO)

/-- The `validQueries` filter of `processBulkResults` (app.js:1911):
`!q.error && q.scores`. -/
def validEntry (q : BulkQueryEntry) : Bool :=
  q.error.isNone && q.scores.isSome

/-- The per-dimension average of `processBulkResults` (app.js:1917-1936):
`avgScores[dim] = (Σ (q.scores[dim] || 0)) / validQueries.length`, every
dimension key present in the result. -/
def avgScoresOf (valid : List BulkQueryEntry) : ScoreVec :=
  let avg : Dimension → ℚ := fun d =>
    (valid.map (fun q =>
      match q.scores with
      | some sv => (sv.get d).getD 0
      | none => 0)).sum / valid.length
  { faithfulness := some (avg .faithfulness)
    structure' := some (avg .structure')
    clarity := some (avg .clarity)
    analysisDepth := some (avg .analysisDepth)
    contextAccuracy := some (avg .contextAccuracy)
    actionability := some (avg .actionability)
    conciseness := some (avg .conciseness) }

/-- One element of `bulkBenchmarkResults` (app.js:1941-1949). -/
structure BulkResult where
  model : String
  modelName : String
  avgScores : ScoreVec
  weightedScore : ℚ
  queriesCompleted : ℕ
  totalQueries : ℕ
  queries : List BulkQueryEntry
deriving DecidableEq, Repr

/-- The `results` array of `processBulkResults` (app.js:1908-1950) before the
final sort: one aggregate record per model with at least one valid entry, in
`modelResults` (selection) order; zero-valid models are skipped
(`continue`). -/
def bulkResultsUnsorted (modelResults : List ModelBulkData) (queryCount : ℕ)
    (w : Weights) : List BulkResult :=
  modelResults.filterMap (fun data =>
    let validQueries := data.queries.filter validEntry
    if validQueries.length = 0 then none
    else
      let avgScores := avgScoresOf validQueries
      some { model := data.model
             modelName := data.modelName
             avgScores := avgScores
             weightedScore := calculateWeightedScore avgScores w
             queriesCompleted := validQueries.length
             totalQueries := queryCount
             queries := data.queries })

/-- `processBulkResults(modelResults, queryCount)` (app.js:1907-1956), with
the mutable global `currentWeights` passed explicitly: the aggregate records
of `bulkResultsUnsorted`, sorted by descending weighted score
(app.js:1953). -/
def processBulkResults (modelResults : List ModelBulkData) (queryCount : ℕ)
    (w : Weights) : List BulkResult :=
  sortByDesc (fun r => r.weightedScore)
    (bulkResultsUnsorted modelResults queryCount w)

/-! ## Characterizations of the run loops -/

section SingleRunLemmas

variable (explainO : ExplainPayload → Except String (Option String))
variable (evalO : EvalPayload → Except String (Option ScoreVec))
variable (rand : ℕ → Dimension → ℚ) (useLLMJudge : Bool) (audience : String)
variable (modelName : String → String) (tc : TestCase) (totalSteps : ℕ)

lemma benchLoop_results (k : ℕ) (ms : List String) :
    (benchLoop explainO evalO rand useLLMJudge audience modelName tc totalSteps
        k ms).results =
      (ms.enumFrom k).map (fun p =>
        benchResultFor explainO evalO rand useLLMJudge audience modelName tc
          p.1 p.2) := by
  induction ms generalizing k with
  | nil => rfl
  | cons m ms ih => simp [benchLoop, List.enumFrom, ih]

lemma benchLoop_explainCalls (k : ℕ) (ms : List String) :
    (benchLoop explainO evalO rand useLLMJudge audience modelName tc totalSteps
        k ms).explainCalls = ms.map (explainPayloadFor tc) := by
  induction ms generalizing k with
  | nil => rfl
  | cons m ms ih => simp [benchLoop, ih]

lemma benchLoop_evalCalls (k : ℕ) (ms : List String) :
    (benchLoop explainO evalO rand useLLMJudge audience modelName tc totalSteps
        k ms).evalCalls =
      if useLLMJudge then
        ms.map (fun m =>
          evalPayloadFor (getModelExplanation explainO m tc) tc audience)
      else [] := by
  induction ms generalizing k with
  | nil => cases useLLMJudge <;> rfl
  | cons m ms ih =>
    cases useLLMJudge <;> simp_all [benchLoop]

lemma benchLoop_progress (k : ℕ) (ms : List String) :
    (benchLoop explainO evalO rand useLLMJudge audience modelName tc totalSteps
        k ms).progress =
      (List.range (2 * ms.length)).map (fun i => (2 * k + i + 1, totalSteps)) := by
  induction ms generalizing k with
  | nil => rfl
  | cons m ms ih =>
    have h2 : 2 * (ms.length + 1) = 2 * ms.length + 1 + 1 := by ring
    simp only [benchLoop, ih (k + 1), List.length_cons, h2, List.range_succ_eq_map]
    simp only [List.map_cons, List.map_map]
    refine congrArg₂ _ (by norm_num) (congrArg₂ _ (by norm_num) ?_)
    apply List.map_congr_left
    intro i _
    simp [Function.comp]
    omega

end SingleRunLemmas

section BulkRunLemmas

variable (queryO : QueryPayload → Except String Tables)
variable (explainO : BulkExplainPayload → Except String String)
variable (evalO : BulkEvalPayload → Except String (Option ScoreVec))
variable (workspaceId : String) (timespanHours : ℤ) (audience : String)
variable (models : List String) (totalSteps : ℕ)

/-- The queries of a bulk run whose `/api/query` call succeeded, paired with
the returned tables.  A pair of `runBulkBenchmark` executes exactly for
these. -/
def successfulQueries (qs : List QueryData) : List (QueryData × Tables) :=
  qs.filterMap (fun qd =>
    match queryO { workspaceId := workspaceId, query := qd.query,
                   timespanHours := timespanHours } with
    | .ok tables => some (qd, tables)
    | .error _ => none)

lemma bulkModelsRun_entries (qd : QueryData) (tables : Tables) (c0 : ℕ)
    (ms : List String) :
    (bulkModelsRun explainO evalO audience totalSteps qd tables c0 ms).entries =
      ms.map (fun m => (m, bulkPairEntry explainO evalO audience qd tables m)) := by
  induction ms generalizing c0 with
  | nil => rfl
  | cons m ms ih =>
    simp only [bulkModelsRun]
    rcases hE : explainO { query := qd.query, tables := tables, model := m } with
      msg | expl
    · simp [bulkPairEntry, hE, ih]
    · rcases hV : evalO { query := qd.query, tables := tables, explanation := expl, audience := audience } with msg | oscores
      · simp [bulkPairEntry, hE, hV, ih]
      · simp [bulkPairEntry, hE, hV, ih]

lemma bulkModelsRun_explainCalls (qd : QueryData) (tables : Tables) (c0 : ℕ)
    (ms : List String) :
    (bulkModelsRun explainO evalO audience totalSteps qd tables c0 ms).explainCalls =
      ms.map (fun m => { query := qd.query, tables := tables, model := m }) := by
  induction ms generalizing c0 with
  | nil => rfl
  | cons m ms ih =>
    simp only [bulkModelsRun]
    rcases hE : explainO { query := qd.query, tables := tables, model := m } with
      msg | expl
    · simp [hE, ih]
    · rcases hV : evalO { query := qd.query, tables := tables, explanation := expl, audience := audience } with msg | oscores
      · simp [hE, hV, ih]
      · simp [hE, hV, ih]

lemma bulkModelsRun_progress_mem (qd : QueryData) (tables : Tables) (c0 : ℕ)
    (ms : List String) :
    ∀ p ∈ (bulkModelsRun explainO evalO audience totalSteps qd tables c0
        ms).progress,
      p.2 = totalSteps ∧ c0 ≤ p.1 ∧ p.1 ≤ c0 + ms.length := by
  induction ms generalizing c0 with
  | nil => intro p hp; simp [bulkModelsRun] at hp
  | cons m ms ih =>
    intro p hp
    simp only [bulkModelsRun] at hp
    have step : ∀ q, q ∈ (bulkModelsRun explainO evalO audience totalSteps qd
        tables (c0 + 1) ms).progress →
        q.2 = totalSteps ∧ c0 ≤ q.1 ∧ q.1 ≤ c0 + (ms.length + 1) := by
      intro q hq
      obtain ⟨h1, h2, h3⟩ := ih (c0 + 1) q hq
      exact ⟨h1, by omega, by omega⟩
    rcases hE : explainO { query := qd.query, tables := tables, model := m } with
      msg | expl
    · simp only [hE, List.mem_cons] at hp
      rcases hp with rfl | rfl | hp
      · refine ⟨rfl, ?_, ?_⟩ <;> simp
      · refine ⟨rfl, ?_, ?_⟩ <;> simp
      · simpa [List.length_cons] using step p hp
    · simp only [hE] at hp
      rcases hV : evalO { query := qd.query, tables := tables, explanation := expl, audience := audience } with msg | oscores
      · simp only [hV, List.mem_cons] at hp
        rcases hp with rfl | rfl | rfl | hp
        · refine ⟨rfl, ?_, ?_⟩ <;> simp
        · refine ⟨rfl, ?_, ?_⟩ <;> simp
        · refine ⟨rfl, ?_, ?_⟩ <;> simp
        · simpa [List.length_cons] using step p hp
      · simp only [hV, List.mem_cons] at hp
        rcases hp with rfl | rfl | rfl | hp
        · refine ⟨rfl, ?_, ?_⟩ <;> simp
        · refine ⟨rfl, ?_, ?_⟩ <;> simp
        · refine ⟨rfl, ?_, ?_⟩ <;> simp
        · simpa [List.length_cons] using step p hp

/-- Prepending an emission whose counter bounds a monotone log keeps it
monotone. -/
lemma progress_chain_cons (c t : ℕ) (l : List (ℕ × ℕ))
    (hl : List.Chain' (fun a b : ℕ × ℕ => a.1 ≤ b.1) l)
    (hmem : ∀ p ∈ l, c ≤ p.1) :
    List.Chain' (fun a b : ℕ × ℕ => a.1 ≤ b.1) ((c, t) :: l) := by
  rw [List.chain'_cons']
  exact ⟨fun y hy => hmem y (List.mem_of_mem_head? hy), hl⟩

lemma bulkModelsRun_progress_chain (qd : QueryData) (tables : Tables) (c0 : ℕ)
    (ms : List String) :
    List.Chain' (fun a b : ℕ × ℕ => a.1 ≤ b.1)
      (bulkModelsRun explainO evalO audience totalSteps qd tables c0
        ms).progress := by
  induction ms generalizing c0 with
  | nil => simp [bulkModelsRun]
  | cons m ms ih =>
    have hrest := ih (c0 + 1)
    have hmem : ∀ p ∈ (bulkModelsRun explainO evalO audience totalSteps qd
        tables (c0 + 1) ms).progress, c0 + 1 ≤ p.1 := by
      intro p hp
      exact (bulkModelsRun_progress_mem explainO evalO audience totalSteps qd
        tables (c0 + 1) ms p hp).2.1
    rcases hE : explainO { query := qd.query, tables := tables, model := m } with
      msg | expl
    · simp only [bulkModelsRun, hE]
      refine progress_chain_cons c0 totalSteps _ ?_ ?_
      · exact progress_chain_cons (c0 + 1) totalSteps _ hrest hmem
      · intro p hp
        rcases List.mem_cons.mp hp with rfl | hp
        · omega
        · exact le_trans (by omega) (hmem p hp)
    · rcases hV : evalO { query := qd.query, tables := tables, explanation := expl, audience := audience } with msg | oscores
      · simp only [bulkModelsRun, hE, hV]
        refine progress_chain_cons c0 totalSteps _ ?_ ?_
        · refine progress_chain_cons c0 totalSteps _ ?_ ?_
          · exact progress_chain_cons (c0 + 1) totalSteps _ hrest hmem
          · intro p hp
            rcases List.mem_cons.mp hp with rfl | hp
            · omega
            · exact le_trans (by omega) (hmem p hp)
        · intro p hp
          rcases List.mem_cons.mp hp with rfl | hp
          · exact le_refl _
          · rcases List.mem_cons.mp hp with rfl | hp
            · omega
            · exact le_trans (by omega) (hmem p hp)
      · simp only [bulkModelsRun, hE, hV]
        refine progress_chain_cons c0 totalSteps _ ?_ ?_
        · refine progress_chain_cons c0 totalSteps _ ?_ ?_
          · exact progress_chain_cons (c0 + 1) totalSteps _ hrest hmem
          · intro p hp
            rcases List.mem_cons.mp hp with rfl | hp
            · omega
            · exact le_trans (by omega) (hmem p hp)
        · intro p hp
          rcases List.mem_cons.mp hp with rfl | hp
          · exact le_refl _
          · rcases List.mem_cons.mp hp with rfl | hp
            · omega
            · exact le_trans (by omega) (hmem p hp)

lemma successfulQueries_cons_ok (qd : QueryData) (qs : List QueryData)
    (tables : Tables)
    (hQ : queryO { workspaceId := workspaceId, query := qd.query, timespanHours := timespanHours } = .ok tables) :
    successfulQueries queryO workspaceId timespanHours (qd :: qs) =
      (qd, tables) :: successfulQueries queryO workspaceId timespanHours qs := by
  simp [successfulQueries, List.filterMap_cons, hQ]

lemma successfulQueries_cons_error (qd : QueryData) (qs : List QueryData)
    (msg : String)
    (hQ : queryO { workspaceId := workspaceId, query := qd.query, timespanHours := timespanHours } = .error msg) :
    successfulQueries queryO workspaceId timespanHours (qd :: qs) =
      successfulQueries queryO workspaceId timespanHours qs := by
  simp [successfulQueries, List.filterMap_cons, hQ]

lemma bulkQueriesRun_entries (c0 : ℕ) (qs : List QueryData) :
    (bulkQueriesRun queryO explainO evalO workspaceId timespanHours audience
        models totalSteps c0 qs).entries =
      (successfulQueries queryO workspaceId timespanHours qs).flatMap
        (fun p => models.map (fun m =>
          (m, bulkPairEntry explainO evalO audience p.1 p.2 m))) := by
  induction qs generalizing c0 with
  | nil => rfl
  | cons qd qs ih =>
    rcases hQ : queryO { workspaceId := workspaceId, query := qd.query, timespanHours := timespanHours } with msg | tables
    · rw [successfulQueries_cons_error _ _ _ qd qs msg hQ]
      simp only [bulkQueriesRun, hQ]
      exact ih c0
    · rw [successfulQueries_cons_ok _ _ _ qd qs tables hQ, List.flatMap_cons]
      simp only [bulkQueriesRun, hQ]
      rw [bulkModelsRun_entries, ih (c0 + models.length)]

lemma bulkQueriesRun_queryCalls (c0 : ℕ) (qs : List QueryData) :
    (bulkQueriesRun queryO explainO evalO workspaceId timespanHours audience
        models totalSteps c0 qs).queryCalls =
      qs.map (fun qd => { workspaceId := workspaceId, query := qd.query, timespanHours := timespanHours }) := by
  induction qs generalizing c0 with
  | nil => rfl
  | cons qd qs ih =>
    rcases hQ : queryO { workspaceId := workspaceId, query := qd.query, timespanHours := timespanHours } with msg | tables
    · simp only [bulkQueriesRun, hQ, List.map_cons]
      rw [ih c0]
    · simp only [bulkQueriesRun, hQ, List.map_cons]
      rw [ih (c0 + models.length)]

lemma bulkQueriesRun_progress_mem (c0 : ℕ) (qs : List QueryData) :
    ∀ p ∈ (bulkQueriesRun queryO explainO evalO workspaceId timespanHours
        audience models totalSteps c0 qs).progress,
      p.2 = totalSteps ∧ c0 ≤ p.1 ∧ p.1 ≤ c0 + models.length * qs.length := by
  induction qs generalizing c0 with
  | nil => intro p hp; simp [bulkQueriesRun] at hp
  | cons qd qs ih =>
    intro p hp
    rcases hQ : queryO { workspaceId := workspaceId, query := qd.query, timespanHours := timespanHours } with msg | tables
    · simp only [bulkQueriesRun, hQ] at hp
      obtain ⟨h1, h2, h3⟩ := ih c0 p hp
      refine ⟨h1, h2, le_trans h3 ?_⟩
      simp [Nat.mul_succ]
    · simp only [bulkQueriesRun, hQ, List.mem_append] at hp
      rcases hp with hp | hp
      · obtain ⟨h1, h2, h3⟩ := bulkModelsRun_progress_mem explainO evalO
          audience totalSteps qd tables c0 models p hp
        refine ⟨h1, h2, le_trans h3 ?_⟩
        simp [Nat.mul_succ]
      · obtain ⟨h1, h2, h3⟩ := ih (c0 + models.length) p hp
        refine ⟨h1, le_trans (by omega) h2, le_trans h3 ?_⟩
        simp [Nat.mul_succ]
        omega

lemma bulkQueriesRun_progress_chain (c0 : ℕ) (qs : List QueryData) :
    List.Chain' (fun a b : ℕ × ℕ => a.1 ≤ b.1)
      (bulkQueriesRun queryO explainO evalO workspaceId timespanHours audience
        models totalSteps c0 qs).progress := by
  induction qs generalizing c0 with
  | nil => simp [bulkQueriesRun]
  | cons qd qs ih =>
    rcases hQ : queryO { workspaceId := workspaceId, query := qd.query, timespanHours := timespanHours } with msg | tables
    · simp only [bulkQueriesRun, hQ]
      exact ih c0
    · simp only [bulkQueriesRun, hQ]
      rw [List.chain'_append]
      refine ⟨bulkModelsRun_progress_chain explainO evalO audience totalSteps
        qd tables c0 models, ih (c0 + models.length), ?_⟩
      intro x hx y hy
      have hx' := bulkModelsRun_progress_mem explainO evalO audience totalSteps
        qd tables c0 models x (List.mem_of_mem_getLast? hx)
      have hy' := bulkQueriesRun_progress_mem queryO explainO evalO workspaceId
        timespanHours audience models totalSteps (c0 + models.length) qs y
        (List.mem_of_mem_head? hy)
      omega

end BulkRunLemmas

section OutputLemmas

lemma pairFilter_map_eq_nil {β : Type _} (h : String → β) (ms : List String)
    (m : String) (hm : m ∉ ms) :
    (ms.map (fun m' => (m', h m'))).filter (fun x => decide (x.1 = m)) = [] := by
  induction ms with
  | nil => rfl
  | cons a as ih =>
    have ha : ¬(a = m) := fun e => hm (e ▸ List.mem_cons_self a as)
    simp only [List.map_cons, List.filter_cons]
    simp [ha, ih (fun hmem => hm (List.mem_cons_of_mem a hmem))]

lemma pairFilter_map_single {β : Type _} (h : String → β) (ms : List String)
    (m : String) (hnd : ms.Nodup) (hm : m ∈ ms) :
    ((ms.map (fun m' => (m', h m'))).filter
      (fun x => decide (x.1 = m))).map Prod.snd = [h m] := by
  induction ms with
  | nil => cases hm
  | cons a as ih =>
    rcases List.nodup_cons.mp hnd with ⟨ha, hnd'⟩
    by_cases hem : a = m
    · subst hem
      simp only [List.map_cons, List.filter_cons]
      simp [pairFilter_map_eq_nil h as a ha]
    · have hm' : m ∈ as := by
        rcases List.mem_cons.mp hm with rfl | h'
        · exact absurd rfl hem
        · exact h'
      simp only [List.map_cons, List.filter_cons]
      simp [hem, ih hnd' hm']

lemma flatMap_pairFilter {β : Type _} (g : QueryData × Tables → String → β)
    (sq : List (QueryData × Tables)) (ms : List String) (m : String)
    (hnd : ms.Nodup) (hm : m ∈ ms) :
    ((sq.flatMap (fun p => ms.map (fun m' => (m', g p m')))).filter
      (fun x => decide (x.1 = m))).map Prod.snd =
      sq.map (fun p => g p m) := by
  induction sq with
  | nil => rfl
  | cons p ps ih =>
    simp only [List.flatMap_cons, List.filter_append, List.map_append, ih,
      pairFilter_map_single (g p) ms m hnd hm]
    rfl

/-- What a bulk run records per model: one entry per successful query, in
query order, each determined only by that pair's own explain/evaluate
oracle responses. -/
lemma runBulkOk_modelResults (queries : List QueryData) (models : List String)
    (workspaceId : String) (timespanHours : ℤ) (audience : String)
    (modelName : String → String)
    (queryO : QueryPayload → Except String Tables)
    (explainO : BulkExplainPayload → Except String String)
    (evalO : BulkEvalPayload → Except String (Option ScoreVec))
    (hnd : models.Nodup) :
    (runBulkOk queries models workspaceId timespanHours audience modelName
        queryO explainO evalO).modelResults =
      models.map (fun m =>
        { model := m
          modelName := modelName m
          queries := (successfulQueries queryO workspaceId timespanHours
            queries).map
            (fun p => bulkPairEntry explainO evalO audience p.1 p.2 m) }) := by
  simp only [runBulkOk]
  apply List.map_congr_left
  intro m hm
  simp only [ModelBulkData.mk.injEq, true_and]
  rw [bulkQueriesRun_entries,
    flatMap_pairFilter (fun p m' => bulkPairEntry explainO evalO audience
      p.1 p.2 m') (successfulQueries queryO workspaceId timespanHours queries)
      models m hnd hm]

lemma filter_ne_nil_iff {β : Type _} (p : β → Bool) (l : List β) :
    l.filter p ≠ [] ↔ ∃ q ∈ l, p q := by
  induction l with
  | nil => simp
  | cons a as ih =>
    by_cases ha : p a
    · simp [List.filter_cons, ha]
    · simp [List.filter_cons, ha, ih]

lemma processBulkResults_mem_iff (mrs : List ModelBulkData) (qc : ℕ)
    (w : Weights) (r : BulkResult) :
    r ∈ processBulkResults mrs qc w ↔
      ∃ d ∈ mrs, (d.queries.filter validEntry).length ≠ 0 ∧
        r = { model := d.model
              modelName := d.modelName
              avgScores := avgScoresOf (d.queries.filter validEntry)
              weightedScore := calculateWeightedScore
                (avgScoresOf (d.queries.filter validEntry)) w
              queriesCompleted := (d.queries.filter validEntry).length
              totalQueries := qc
              queries := d.queries } := by
  constructor
  · intro hr
    have hr' := (sortByDesc_perm (fun r : BulkResult => r.weightedScore)
      (mrs.filterMap (fun data =>
        let validQueries := data.queries.filter validEntry
        if validQueries.length = 0 then none
        else
          let avgScores := avgScoresOf validQueries
          some { model := data.model
                 modelName := data.modelName
                 avgScores := avgScores
                 weightedScore := calculateWeightedScore avgScores w
                 queriesCompleted := validQueries.length
                 totalQueries := qc
                 queries := data.queries }))).mem_iff.mp hr
    rw [List.mem_filterMap] at hr'
    rcases hr' with ⟨d, hd, hf⟩
    simp only at hf
    by_cases hz : (d.queries.filter validEntry).length = 0
    · rw [if_pos hz] at hf
      cases hf
    · rw [if_neg hz] at hf
      exact ⟨d, hd, hz, (Option.some_inj.mp hf).symm⟩
  · rintro ⟨d, hd, hz, rfl⟩
    apply (sortByDesc_perm (fun r : BulkResult => r.weightedScore) _).mem_iff.mpr
    unfold bulkResultsUnsorted
    rw [List.mem_filterMap]
    exact ⟨d, hd, by simp only; rw [if_neg hz]⟩

lemma processBulkResults_ne_nil_iff (mrs : List ModelBulkData) (qc : ℕ)
    (w : Weights) :
    processBulkResults mrs qc w ≠ [] ↔
      ∃ d ∈ mrs, ∃ q ∈ d.queries, validEntry q := by
  constructor
  · intro hne
    rcases List.exists_mem_of_ne_nil _ hne with ⟨r, hr⟩
    rcases (processBulkResults_mem_iff mrs qc w r).mp hr with ⟨d, hd, hz, -⟩
    refine ⟨d, hd, ?_⟩
    by_contra hq
    have hnil : d.queries.filter validEntry = [] := by
      by_contra hne'
      exact hq ((filter_ne_nil_iff validEntry d.queries).mp hne')
    rw [hnil] at hz
    exact hz rfl
  · rintro ⟨d, hd, q, hq1, hq2⟩
    have hz : (d.queries.filter validEntry).length ≠ 0 := by
      intro h0
      have hnil : d.queries.filter validEntry = [] := List.length_eq_zero.mp h0
      have hmem : q ∈ d.queries.filter validEntry :=
        List.mem_filter.mpr ⟨hq1, hq2⟩
      rw [hnil] at hmem
      cases hmem
    intro hnil
    have hmem := (processBulkResults_mem_iff mrs qc w _).mpr ⟨d, hd, hz, rfl⟩
    rw [hnil] at hmem
    cases hmem

end OutputLemmas

/-! ## Claims -/

/-- C1 (counterexample): the claim's renormalized formula fails for
`calculateWeightedTotal` on a score vector carrying only `faithfulness = 5`:
the code yields `5 * 0.25 = 1.25` (missing dimensions contribute `0`, no
renormalization), while the formula yields `5 * 0.25 / 0.25 = 5`. -/
theorem C1_counterexample :
    calculateWeightedTotal
        { faithfulness := some 5, structure' := none, clarity := none,
          analysisDepth := none, contextAccuracy := none,
          actionability := none, conciseness := none } ≠
      specRenormalizedTotal
        { faithfulness := some 5, structure' := none, clarity := none,
          analysisDepth := none, contextAccuracy := none,
          actionability := none, conciseness := none } benchmarkWeights := by
  norm_num [calculateWeightedTotal, specRenormalizedTotal, Dimension.all,
    ScoreVec.get, Weights.get, benchmarkWeights]

/-- C1 (amended): the bulk-path `calculateWeightedScore` computes exactly the
renormalized formula (for the nonnegative weights of a weight profile), but
the single-query `calculateWeightedTotal` treats missing dimensions as zero
with no renormalization and agrees with that formula only when every
dimension is present in the score vector. -/
theorem C1_weighted_total_amended :
    (∀ (s : ScoreVec) (w : Weights), (∀ d, 0 ≤ w.get d) →
      calculateWeightedScore s w = specRenormalizedTotal s w) ∧
    (∀ s : ScoreVec, (∀ d, (s.get d).isSome) →
      calculateWeightedTotal s = specRenormalizedTotal s benchmarkWeights) := by
  constructor
  · intro s w hw
    unfold calculateWeightedScore
    by_cases h : weightedScoreWeightSum s w > 0
    · rw [if_pos h]
      unfold specRenormalizedTotal weightedScoreTotal weightedScoreWeightSum
      congr 1
      refine congrArg List.sum ?_
      apply List.map_congr_left
      intro d _
      cases s.get d <;> simp [mul_comm]
    · rw [if_neg h]
      have h0 : weightedScoreWeightSum s w = 0 :=
        le_antisymm (not_lt.mp h) (weightedScoreWeightSum_nonneg s w hw)
      have hspec : specRenormalizedTotal s w =
          (Dimension.all.map (fun d =>
            match s.get d with
            | some v => w.get d * v
            | none => 0)).sum / weightedScoreWeightSum s w := rfl
      rw [hspec, h0, div_zero]
  · intro s h
    rcases s with ⟨f, st, cl, ad, ca, ac, co⟩
    have hf := h .faithfulness
    have hst := h .structure'
    have hcl := h .clarity
    have had := h .analysisDepth
    have hca := h .contextAccuracy
    have hac := h .actionability
    have hco := h .conciseness
    simp only [ScoreVec.get] at hf hst hcl had hca hac hco
    rw [Option.isSome_iff_exists] at hf hst hcl had hca hac hco
    obtain ⟨a1, rfl⟩ := hf
    obtain ⟨a2, rfl⟩ := hst
    obtain ⟨a3, rfl⟩ := hcl
    obtain ⟨a4, rfl⟩ := had
    obtain ⟨a5, rfl⟩ := hca
    obtain ⟨a6, rfl⟩ := hac
    obtain ⟨a7, rfl⟩ := hco
    simp only [calculateWeightedTotal, specRenormalizedTotal, Dimension.all,
      ScoreVec.get, Weights.get, benchmarkWeights, List.map_cons, List.map_nil,
      List.sum_cons, List.sum_nil, Option.getD_some]
    norm_num
    ring

/-- C1 (witness): both parts of the amended claim applied at an all-3s score
vector. -/
theorem C1_witness :
    (calculateWeightedScore
        { faithfulness := some 3, structure' := some 3, clarity := some 3,
          analysisDepth := some 3, contextAccuracy := some 3,
          actionability := some 3, conciseness := some 3 } currentWeightsInit =
      specRenormalizedTotal
        { faithfulness := some 3, structure' := some 3, clarity := some 3,
          analysisDepth := some 3, contextAccuracy := some 3,
          actionability := some 3, conciseness := some 3 } currentWeightsInit) ∧
    (calculateWeightedTotal
        { faithfulness := some 3, structure' := some 3, clarity := some 3,
          analysisDepth := some 3, contextAccuracy := some 3,
          actionability := some 3, conciseness := some 3 } =
      specRenormalizedTotal
        { faithfulness := some 3, structure' := some 3, clarity := some 3,
          analysisDepth := some 3, contextAccuracy := some 3,
          actionability := some 3, conciseness := some 3 } benchmarkWeights) :=
  ⟨C1_weighted_total_amended.1 _ _
    (fun d => by cases d <;> simp [Weights.get, currentWeightsInit]),
   C1_weighted_total_amended.2 _ (fun d => by cases d <;> rfl)⟩

/-- C9 (confirmed): with every `Math.random()` draw in `[0, 1)`, every one of
the seven dimension values of `getPlaceholderScores` is present and lies in
`[3, 5)` — inside the valid 1–5 scale, indistinguishable by value from a
genuine judge score. -/
theorem C9_placeholder_range :
    ∀ r : Dimension → ℚ, (∀ d, 0 ≤ r d ∧ r d < 1) →
      ∀ d, ∃ v, (getPlaceholderScores r).get d = some v ∧ 3 ≤ v ∧ v < 5 := by
  intro r h d
  refine ⟨r d * 2 + 3, getPlaceholderScores_get r d, ?_, ?_⟩
  · have h1 := (h d).1
    linarith
  · have h2 := (h d).2
    linarith

/-- C9 (witness): all-zero draws give `faithfulness = 3 ∈ [3, 5)`. -/
theorem C9_witness :
    ∃ v, (getPlaceholderScores (fun _ => 0)).get .faithfulness = some v ∧
      3 ≤ v ∧ v < 5 :=
  C9_placeholder_range (fun _ => 0) (fun _ => ⟨le_refl 0, zero_lt_one⟩)
    .faithfulness

/-- C10 (confirmed): `calculateWeightedScore` is total and guards its
division: whenever the sum of the weights matched by the score vector is `0`
(in particular when no dimension is present at all), it returns `0`. -/
theorem C10_weighted_score_total_safe :
    (∀ (s : ScoreVec) (w : Weights), weightedScoreWeightSum s w = 0 →
      calculateWeightedScore s w = 0) ∧
    (∀ w : Weights,
      weightedScoreWeightSum
        { faithfulness := none, structure' := none, clarity := none,
          analysisDepth := none, contextAccuracy := none,
          actionability := none, conciseness := none } w = 0 ∧
      calculateWeightedScore
        { faithfulness := none, structure' := none, clarity := none,
          analysisDepth := none, contextAccuracy := none,
          actionability := none, conciseness := none } w = 0) := by
  constructor
  · intro s w h
    simp [calculateWeightedScore, h]
  · intro w
    have h : weightedScoreWeightSum
        { faithfulness := none, structure' := none, clarity := none,
          analysisDepth := none, contextAccuracy := none,
          actionability := none, conciseness := none } w = 0 := by
      simp [weightedScoreWeightSum, Dimension.all, ScoreVec.get]
    exact ⟨h, by simp [calculateWeightedScore, h]⟩

/-- All-3s scores: weighted total 3 under the hard-coded weights. -/
def allThreeScores : ScoreVec :=
  { faithfulness := some 3, structure' := some 3, clarity := some 3,
    analysisDepth := some 3, contextAccuracy := some 3,
    actionability := some 3, conciseness := some 3 }

/-- Faithfulness 5, everything else 7/3: also weighted total 3 under the
hard-coded weights, but a far higher faithfulness than `allThreeScores`. -/
def c3ScoresB : ScoreVec :=
  { faithfulness := some 5, structure' := some (7/3), clarity := some (7/3),
    analysisDepth := some (7/3), contextAccuracy := some (7/3),
    actionability := some (7/3), conciseness := some (7/3) }

/-- benchmarkResults entry for model-a in the C3 counterexample. -/
def c3ResultA : BenchResult :=
  { model := "model-a", modelName := "Model A", explanation := "ea",
    scores := allThreeScores, weightedTotal := calculateWeightedTotal allThreeScores }

/-- benchmarkResults entry for model-b in the C3 counterexample. -/
def c3ResultB : BenchResult :=
  { model := "model-b", modelName := "Model B", explanation := "eb",
    scores := c3ScoresB, weightedTotal := calculateWeightedTotal c3ScoresB }

/-- C3 (counterexample): two results with equal weighted totals where the
later-listed model has the strictly higher faithfulness; the ranking keeps
the lower-faithfulness model first (the sort is stable and has no
faithfulness tie-break), contradicting the claimed tie-break. -/
theorem C3_counterexample :
    renderBenchmarkRanking [c3ResultA, c3ResultB] = [c3ResultA, c3ResultB] ∧
    c3ResultA.weightedTotal = c3ResultB.weightedTotal ∧
    (c3ResultA.scores.get .faithfulness).getD 0 <
      (c3ResultB.scores.get .faithfulness).getD 0 := by
  have hle : calculateWeightedTotal c3ScoresB ≤ calculateWeightedTotal allThreeScores := by
    norm_num [calculateWeightedTotal, Dimension.all, ScoreVec.get,
      Weights.get, benchmarkWeights, allThreeScores, c3ScoresB]
  refine ⟨?_, ?_, ?_⟩
  · simp [renderBenchmarkRanking, sortByDesc, insertDesc, c3ResultA,
      c3ResultB, hle]
  · norm_num [c3ResultA, c3ResultB, calculateWeightedTotal, Dimension.all,
      ScoreVec.get, Weights.get, benchmarkWeights, allThreeScores, c3ScoresB]
  · norm_num [c3ResultA, c3ResultB, allThreeScores, c3ScoresB, ScoreVec.get]

/-- C3 (amended): both rankings are sorted by descending weighted total, and
each is a permutation of its pre-sort list (`benchmarkResults` for the
single path, the per-model aggregate list `bulkResultsUnsorted` for the bulk
path), but ties are not broken by faithfulness: the sort is stable, so
results with equal totals keep their pre-sort relative order. -/
theorem C3_ranking_amended :
    (∀ l : List BenchResult,
      (renderBenchmarkRanking l).Pairwise
        (fun a b => b.weightedTotal ≤ a.weightedTotal) ∧
      (renderBenchmarkRanking l).Perm l ∧
      ∀ c : ℚ, (renderBenchmarkRanking l).filter
          (fun r => decide (r.weightedTotal = c)) =
        l.filter (fun r => decide (r.weightedTotal = c))) ∧
    (∀ (mrs : List ModelBulkData) (qc : ℕ) (w : Weights),
      (processBulkResults mrs qc w).Pairwise
        (fun a b => b.weightedScore ≤ a.weightedScore) ∧
      (processBulkResults mrs qc w).Perm (bulkResultsUnsorted mrs qc w) ∧
      ∀ c : ℚ, (processBulkResults mrs qc w).filter
          (fun r => decide (r.weightedScore = c)) =
        (bulkResultsUnsorted mrs qc w).filter
          (fun r => decide (r.weightedScore = c))) := by
  constructor
  · intro l
    exact ⟨sortByDesc_pairwise _ l, sortByDesc_perm _ l,
      fun c => sortByDesc_filter_key _ c l⟩
  · intro mrs qc w
    exact ⟨sortByDesc_pairwise _ _,
      sortByDesc_perm _ (bulkResultsUnsorted mrs qc w),
      fun c => sortByDesc_filter_key _ c (bulkResultsUnsorted mrs qc w)⟩

/-- C4 (counterexample): a bulk run with a single selected model is not
rejected — it proceeds and issues a remote `/api/query` call. -/
theorem C4_counterexample :
    (runBulkBenchmark ["Heartbeat"] ["model-a"] "ws" 24 "developer" id
        (fun _ => .ok [{ columns := ["c"], rows := [["1"]] }])
        (fun _ => .ok "expl")
        (fun _ => .ok (some allThreeScores))).toOption.map
      (fun o => o.queryCalls.length) = some 1 ∧
    List.length ["model-a"] < 2 :=
  ⟨rfl, by decide⟩

/-- C4 (amended): the single-query `runBenchmark` rejects fewer than 2
selected models before any remote call (it never reaches the run loop), but
the bulk `runBulkBenchmark` only rejects zero selected models (and zero
queries / a blank workspace id): with one model and valid inputs it proceeds
to the run loop. -/
theorem C4_fewer_models_amended :
    (∀ (cq : Option String) (ct : Option Table) (models : List String)
      (j : Bool) (aud : String) (mn : String → String)
      (eO : ExplainPayload → Except String (Option String))
      (vO : EvalPayload → Except String (Option ScoreVec))
      (rand : ℕ → Dimension → ℚ),
      models.length < 2 →
      ∀ out, runBenchmark cq ct models j aud mn eO vO rand ≠ .ok out) ∧
    (∀ (qts : List String) (ws : String) (ts : ℤ) (aud : String)
      (mn : String → String) (qO : QueryPayload → Except String Tables)
      (eO : BulkExplainPayload → Except String String)
      (vO : BulkEvalPayload → Except String (Option ScoreVec)),
      runBulkBenchmark qts [] ws ts aud mn qO eO vO = .error .noQueries ∨
      runBulkBenchmark qts [] ws ts aud mn qO eO vO = .error .noModels) ∧
    (∀ (qts models : List String) (ws : String) (ts : ℤ) (aud : String)
      (mn : String → String) (qO : QueryPayload → Except String Tables)
      (eO : BulkExplainPayload → Except String String)
      (vO : BulkEvalPayload → Except String (Option ScoreVec)),
      parseQueries qts ≠ [] → models ≠ [] → jsTrim ws ≠ "" →
      runBulkBenchmark qts models ws ts aud mn qO eO vO =
        .ok (runBulkOk (parseQueries qts) models (jsTrim ws) ts aud mn
          qO eO vO)) := by
  refine ⟨?_, ?_, ?_⟩
  · intro cq ct models j aud mn eO vO rand h out
    cases cq with
    | none => cases ct <;> simp [runBenchmark]
    | some q =>
      cases ct with
      | none => simp [runBenchmark]
      | some t =>
        simp only [runBenchmark]
        by_cases h0 : models.length = 0
        · simp [h0]
        · rw [if_neg h0, if_pos h]
          simp
  · intro qts ws ts aud mn qO eO vO
    by_cases hq : (parseQueries qts).length = 0
    · left
      simp [runBulkBenchmark, hq]
    · right
      simp [runBulkBenchmark, hq]
  · intro qts models ws ts aud mn qO eO vO h1 h2 h3
    have hq : ¬((parseQueries qts).length = 0) := by
      simpa [List.length_eq_zero] using h1
    have hm : ¬(models.length = 0) := by
      simpa [List.length_eq_zero] using h2
    simp [runBulkBenchmark, hq, hm, h3]

/-- C4 (witness): the three parts of the amended claim at concrete inputs —
a 1-model single-query run is rejected, a 0-model bulk run is rejected, and
a 1-model bulk run proceeds. -/
theorem C4_witness :
    (runBenchmark (some "q") (some { columns := ["c"], rows := [["1"]] })
        ["model-a"] true "developer" id (fun _ => .ok (some "e"))
        (fun _ => .ok none) (fun _ _ => 0) ≠
      .ok { results := [], progress := [], explainCalls := [], evalCalls := [] }) ∧
    (runBulkBenchmark ["q"] [] "ws" 24 "developer" id (fun _ => .error "x")
        (fun _ => .error "x") (fun _ => .error "x") = .error .noQueries ∨
      runBulkBenchmark ["q"] [] "ws" 24 "developer" id (fun _ => .error "x")
        (fun _ => .error "x") (fun _ => .error "x") = .error .noModels) ∧
    (runBulkBenchmark ["q"] ["model-a"] "ws" 24 "developer" id
        (fun _ => .error "x") (fun _ => .error "x") (fun _ => .error "x") =
      .ok (runBulkOk (parseQueries ["q"]) ["model-a"] (jsTrim "ws") 24
        "developer" id (fun _ => .error "x") (fun _ => .error "x")
        (fun _ => .error "x"))) :=
  ⟨C4_fewer_models_amended.1 _ _ _ _ _ _ _ _ _ (by decide) _,
   C4_fewer_models_amended.2.1 _ _ _ _ _ _ _ _,
   C4_fewer_models_amended.2.2 _ _ _ _ _ _ _ _ _ (by decide) (by decide)
     (by decide)⟩

/-- C2 (counterexample): a run whose judge call fails for every pair is equal
— results, progress, and call logs alike — to a run whose judge succeeds and
returns the same numbers the placeholder would produce.  Nothing in any
output marks the placeholder substitution, so the result does not record
whether its scores are real or placeholder. -/
theorem C2_counterexample :
    runBenchmark (some "q") (some { columns := ["c"], rows := [["1"]] })
        ["model-a", "model-b"] true "developer" id
        (fun _ => .ok (some "an explanation"))
        (fun _ => .error "judge failed") (fun _ _ => 0) =
      runBenchmark (some "q") (some { columns := ["c"], rows := [["1"]] })
        ["model-a", "model-b"] true "developer" id
        (fun _ => .ok (some "an explanation"))
        (fun _ => .ok (some (getPlaceholderScores (fun _ => 0))))
        (fun _ _ => 0) := rfl

/-- C2 (amended): when the judge call fails, `runBenchmark` stores the
`getPlaceholderScores` vector in the same `scores` field used for genuine
judge scores and computes its `weightedTotal` from it like any other result;
no field of the result records the substitution, so placeholder-scored
results enter `benchmarkResults` (and hence the ranking) indistinguishable
from genuine ones. -/
theorem C2_placeholder_amended :
    ∀ (q : String) (t : Table) (models : List String) (aud : String)
      (mn : String → String)
      (eO : ExplainPayload → Except String (Option String))
      (rand : ℕ → Dimension → ℚ) (msg : String) (out : SingleLog),
      runBenchmark (some q) (some t) models true aud mn eO
          (fun _ => .error msg) rand = .ok out →
      out.results = (models.enumFrom 0).map (fun p =>
        { model := p.2
          modelName := mn p.2
          explanation := getModelExplanation eO p.2 (currentTestCase q t aud)
          scores := getPlaceholderScores (rand p.1)
          weightedTotal :=
            calculateWeightedTotal (getPlaceholderScores (rand p.1)) }) := by
  intro q t models aud mn eO rand msg out h
  simp only [runBenchmark] at h
  by_cases h0 : models.length = 0
  · simp [h0] at h
  · by_cases h2 : models.length < 2
    · rw [if_neg h0, if_pos h2] at h
      simp at h
    · rw [if_neg h0, if_neg h2] at h
      have hout : runBenchmarkOk q t models true aud mn eO
          (fun _ => .error msg) rand = out := by
        injection h
      subst hout
      unfold runBenchmarkOk
      rw [benchLoop_results]
      apply List.map_congr_left
      intro p hp
      simp [benchResultFor, evaluateWithLLM]

/-- C2 (witness): the amended claim at a concrete two-model run with a
failing judge. -/
theorem C2_witness :
    (runBenchmarkOk "q" { columns := ["c"], rows := [["1"]] }
        ["model-a", "model-b"] true "developer" id (fun _ => .ok (some "e"))
        (fun _ => .error "judge down") (fun _ _ => 0)).results =
      ((["model-a", "model-b"].enumFrom 0).map (fun p =>
        { model := p.2
          modelName := id p.2
          explanation := getModelExplanation (fun _ => .ok (some "e")) p.2
            (currentTestCase "q" { columns := ["c"], rows := [["1"]] }
              "developer")
          scores := getPlaceholderScores ((fun _ _ => (0 : ℚ)) p.1)
          weightedTotal := calculateWeightedTotal
            (getPlaceholderScores ((fun _ _ => (0 : ℚ)) p.1)) })) :=
  C2_placeholder_amended "q" _ ["model-a", "model-b"] "developer" id _ _
    "judge down" _ rfl

/-- C5 (counterexample): a run in which the explanation call fails with
"network down" is equal in every output to a run whose explanation call
succeeds returning the text `Error: network down` — the pair failure is
folded into the explanation string, not recorded as an error-marked result. -/
theorem C5_counterexample :
    runBenchmark (some "q") (some { columns := ["c"], rows := [["1"]] })
        ["model-a", "model-b"] true "developer" id
        (fun _ => .error "network down")
        (fun _ => .ok (some allThreeScores)) (fun _ _ => 0) =
      runBenchmark (some "q") (some { columns := ["c"], rows := [["1"]] })
        ["model-a", "model-b"] true "developer" id
        (fun _ => .ok (some ("Error: " ++ "network down")))
        (fun _ => .ok (some allThreeScores)) (fun _ _ => 0) := rfl

/-- C5 (amended): in bulk runs each (query, model) pair of a successful query
gets exactly one recorded entry, computed from that pair's own explain and
evaluate responses alone (so one pair's failure cannot affect any other), and
the entry is error-free exactly when both calls succeeded; the final ranking
is nonempty iff at least one pair produced a valid (error-free, scored)
entry; in single-query runs every selected model yields a result regardless
of failures.  In the single-query path, however, failures are folded into
the explanation text or placeholder scores rather than an error-marked
result. -/
theorem C5_pair_isolation_amended :
    (∀ (queries : List QueryData) (models : List String) (ws : String)
      (ts : ℤ) (aud : String) (mn : String → String)
      (qO : QueryPayload → Except String Tables)
      (eO : BulkExplainPayload → Except String String)
      (vO : BulkEvalPayload → Except String (Option ScoreVec)),
      models.Nodup →
      (runBulkOk queries models ws ts aud mn qO eO vO).modelResults =
        models.map (fun m =>
          { model := m
            modelName := mn m
            queries := (successfulQueries qO ws ts queries).map
              (fun p => bulkPairEntry eO vO aud p.1 p.2 m) })) ∧
    (∀ (eO : BulkExplainPayload → Except String String)
      (vO : BulkEvalPayload → Except String (Option ScoreVec))
      (aud : String) (qd : QueryData) (tables : Tables) (m : String),
      (bulkPairEntry eO vO aud qd tables m).error = none ↔
        ∃ expl sc,
          eO { query := qd.query, tables := tables, model := m } = .ok expl ∧
          vO { query := qd.query, tables := tables, explanation := expl,
               audience := aud } = .ok sc) ∧
    (∀ (mrs : List ModelBulkData) (qc : ℕ) (w : Weights),
      processBulkResults mrs qc w ≠ [] ↔
        ∃ d ∈ mrs, ∃ qe ∈ d.queries, validEntry qe) ∧
    (∀ (q : String) (t : Table) (models : List String) (j : Bool)
      (aud : String) (mn : String → String)
      (eO : ExplainPayload → Except String (Option String))
      (vO : EvalPayload → Except String (Option ScoreVec))
      (rand : ℕ → Dimension → ℚ) (out : SingleLog),
      runBenchmark (some q) (some t) models j aud mn eO vO rand = .ok out →
      out.results.length = models.length) := by
  refine ⟨?_, ?_, ?_, ?_⟩
  · intro queries models ws ts aud mn qO eO vO hnd
    exact runBulkOk_modelResults queries models ws ts aud mn qO eO vO hnd
  · intro eO vO aud qd tables m
    rcases hE : eO { query := qd.query, tables := tables, model := m } with
      msg | expl
    · simp [bulkPairEntry, hE, errEntry]
    · rcases hV : vO { query := qd.query, tables := tables, explanation := expl, audience := aud } with msg | sc
      · simp only [bulkPairEntry, hE, hV, errEntry]
        constructor
        · intro hc
          cases hc
        · rintro ⟨expl', sc', hE', hV'⟩
          have hee : expl = expl' := by simpa using hE'
          subst hee
          rw [hV'] at hV
          cases hV
      · simp only [bulkPairEntry, hE, hV, okEntry]
        exact ⟨fun _ => ⟨expl, sc, rfl, hV⟩, fun _ => trivial⟩
  · intro mrs qc w
    exact processBulkResults_ne_nil_iff mrs qc w
  · intro q t models j aud mn eO vO rand out h
    simp only [runBenchmark] at h
    by_cases h0 : models.length = 0
    · simp [h0] at h
    · by_cases h2 : models.length < 2
      · rw [if_neg h0, if_pos h2] at h
        simp at h
      · rw [if_neg h0, if_neg h2] at h
        have hout : runBenchmarkOk q t models j aud mn eO vO rand = out := by
          injection h
        subst hout
        unfold runBenchmarkOk
        rw [benchLoop_results]
        simp

/-- A `modelResults` value whose single model has one error-only entry. -/
def c5ErrorOnlyModel : ModelBulkData :=
  { model := "model-a", modelName := "Model A",
    queries := [errEntry { index := 1, query := "q" } "boom"] }

/-- C5 (witness): the amended claim at concrete runs — a bulk run with a
failing explain oracle, a one-model-one-entry `processBulkResults` input, and
a two-model single-query run with failing oracles. -/
theorem C5_witness :
    ((runBulkOk [{ index := 1, query := "q" }] ["model-a", "model-b"] "ws" 24
        "developer" id (fun _ => .ok [{ columns := ["c"], rows := [["1"]] }])
        (fun _ => .error "boom")
        (fun _ => .ok (some allThreeScores))).modelResults =
      ["model-a", "model-b"].map (fun m =>
        { model := m
          modelName := id m
          queries := (successfulQueries
            (fun _ => .ok [{ columns := ["c"], rows := [["1"]] }]) "ws" 24
            [{ index := 1, query := "q" }]).map
            (fun p => bulkPairEntry (fun _ => .error "boom")
              (fun _ => .ok (some allThreeScores)) "developer" p.1 p.2 m) })) ∧
    (processBulkResults [c5ErrorOnlyModel] 1 currentWeightsInit ≠ [] ↔
      ∃ d ∈ [c5ErrorOnlyModel], ∃ qe ∈ d.queries, validEntry qe) ∧
    ((runBenchmarkOk "q" { columns := ["c"], rows := [["1"]] }
        ["model-a", "model-b"] true "developer" id (fun _ => .error "x")
        (fun _ => .error "y") (fun _ _ => 0)).results.length =
      ["model-a", "model-b"].length) :=
  ⟨C5_pair_isolation_amended.1 _ _ _ _ _ _ _ _ _ (by decide),
   C5_pair_isolation_amended.2.2.1 _ _ _,
   C5_pair_isolation_amended.2.2.2 "q" _ ["model-a", "model-b"] true
     "developer" id _ _ _ _ rfl⟩

/-- A bulk model with three error entries out of three queries (zero
successful pairs). -/
def c6NoDataA : ModelBulkData :=
  { model := "model-a", modelName := "Model A",
    queries := [errEntry { index := 1, query := "q1" } "boom",
                errEntry { index := 2, query := "q2" } "boom",
                errEntry { index := 3, query := "q3" } "boom"] }

/-- A bulk model with one successful pair out of three queries. -/
def c6ValidB : ModelBulkData :=
  { model := "model-b", modelName := "Model B",
    queries := [okEntry { index := 1, query := "q1" } "e" (some allThreeScores),
                errEntry { index := 2, query := "q2" } "x",
                errEntry { index := 3, query := "q3" } "y"] }

/-- C6 (counterexample): a model with zero successful pairs across 3 test
cases does not appear anywhere in the `processBulkResults` output — there is
no separate "no data" entry carrying completedCount=0/totalCount=3; the model
is simply absent. -/
theorem C6_counterexample :
    ((processBulkResults [c6NoDataA, c6ValidB] 3 currentWeightsInit).map
      (fun r => r.model) = ["model-b"]) ∧
    ¬ ∃ r ∈ processBulkResults [c6NoDataA, c6ValidB] 3 currentWeightsInit,
        r.model = "model-a" := by
  have h1 : (processBulkResults [c6NoDataA, c6ValidB] 3
      currentWeightsInit).map (fun r => r.model) = ["model-b"] := rfl
  refine ⟨h1, ?_⟩
  rintro ⟨r, hr, hrm⟩
  have hm : r.model ∈ (processBulkResults [c6NoDataA, c6ValidB] 3
      currentWeightsInit).map (fun r => r.model) :=
    List.mem_map_of_mem _ hr
  rw [h1, hrm] at hm
  exact absurd hm (by decide)

/-- C6 (amended): a model with zero successful pairs is excluded from the
ranking entirely — every ranked entry has `queriesCompleted ≥ 1` and carries
`totalQueries` — and (for distinct model ids) no entry of any kind is
produced for the zero-success model: it is absent from the output rather
than reported as a separate "no data" record. -/
theorem C6_no_data_amended :
    (∀ (mrs : List ModelBulkData) (qc : ℕ) (w : Weights),
      ∀ r ∈ processBulkResults mrs qc w,
        0 < r.queriesCompleted ∧ r.totalQueries = qc ∧
        ∃ d ∈ mrs, r.model = d.model ∧
          r.queriesCompleted = (d.queries.filter validEntry).length) ∧
    (∀ (mrs : List ModelBulkData) (qc : ℕ) (w : Weights),
      (mrs.map (fun d => d.model)).Nodup →
      ∀ d ∈ mrs, d.queries.filter validEntry = [] →
      ∀ r ∈ processBulkResults mrs qc w, r.model ≠ d.model) := by
  constructor
  · intro mrs qc w r hr
    rcases (processBulkResults_mem_iff mrs qc w r).mp hr with ⟨d, hd, hz, rfl⟩
    exact ⟨Nat.pos_of_ne_zero hz, rfl, d, hd, rfl, rfl⟩
  · intro mrs qc w hnd d hd hdnil r hr hrm
    rcases (processBulkResults_mem_iff mrs qc w r).mp hr with ⟨d', hd', hz, rfl⟩
    have hdd : d' = d := List.inj_on_of_nodup_map hnd hd' hd hrm
    subst hdd
    rw [hdnil] at hz
    exact hz rfl

/-- C6 (witness): the amended claim at the concrete two-model input — the
surviving entry for model-b is not an entry for the zero-success model-a. -/
theorem C6_witness :
    ({ model := c6ValidB.model
       modelName := c6ValidB.modelName
       avgScores := avgScoresOf (c6ValidB.queries.filter validEntry)
       weightedScore := calculateWeightedScore
         (avgScoresOf (c6ValidB.queries.filter validEntry)) currentWeightsInit
       queriesCompleted := (c6ValidB.queries.filter validEntry).length
       totalQueries := 3
       queries := c6ValidB.queries } : BulkResult).model ≠ c6NoDataA.model :=
  C6_no_data_amended.2 [c6NoDataA, c6ValidB] 3 currentWeightsInit (by decide)
    c6NoDataA (List.mem_cons_self _ _) (by decide) _
    ((processBulkResults_mem_iff _ _ _ _).mpr
      ⟨c6ValidB, by simp, by decide, rfl⟩)

/-- C7 (counterexample): a bulk run over 1 query and 2 models emits progress
pairs whose `totalSteps` is `2` — one step per (model, testCase) pair, with
no generate/evaluate doubling — not `|models| × |testCases| × 2 = 4` as
claimed. -/
theorem C7_counterexample :
    (runBulkBenchmark ["Heartbeat"] ["model-a", "model-b"] "ws" 24 "developer"
        id (fun _ => .ok [{ columns := ["c"], rows := [["1"]] }])
        (fun _ => .ok "expl")
        (fun _ => .ok (some allThreeScores))).toOption.map
      (fun o => o.progress) =
      some [(0, 2), (0, 2), (1, 2), (1, 2), (1, 2), (2, 2)] ∧
    (2 : ℕ) ≠ ["model-a", "model-b"].length * ["Heartbeat"].length * 2 :=
  ⟨rfl, by decide⟩

/-- C7 (amended): progress counters are monotonically non-decreasing and
bounded by `totalSteps` in both paths, but `totalSteps` is
`|models| × |testCases| × 2` only in the single-query path (one test case,
generate + evaluate per model); the bulk path emits
`totalSteps = |queries| × |models|` — one step per pair. -/
theorem C7_progress_amended :
    (∀ (q : String) (t : Table) (models : List String) (j : Bool)
      (aud : String) (mn : String → String)
      (eO : ExplainPayload → Except String (Option String))
      (vO : EvalPayload → Except String (Option ScoreVec))
      (rand : ℕ → Dimension → ℚ) (out : SingleLog),
      runBenchmark (some q) (some t) models j aud mn eO vO rand = .ok out →
      out.progress = (List.range (2 * models.length)).map
          (fun i => (i + 1, models.length * 2)) ∧
      List.Chain' (fun a b : ℕ × ℕ => a.1 ≤ b.1) out.progress) ∧
    (∀ (qts models : List String) (ws : String) (ts : ℤ) (aud : String)
      (mn : String → String) (qO : QueryPayload → Except String Tables)
      (eO : BulkExplainPayload → Except String String)
      (vO : BulkEvalPayload → Except String (Option ScoreVec))
      (out : BulkRunOutput),
      runBulkBenchmark qts models ws ts aud mn qO eO vO = .ok out →
      List.Chain' (fun a b : ℕ × ℕ => a.1 ≤ b.1) out.progress ∧
      ∀ p ∈ out.progress,
        p.2 = (parseQueries qts).length * models.length ∧
        p.1 ≤ (parseQueries qts).length * models.length) := by
  constructor
  · intro q t models j aud mn eO vO rand out h
    simp only [runBenchmark] at h
    by_cases h0 : models.length = 0
    · simp [h0] at h
    · by_cases h2 : models.length < 2
      · rw [if_neg h0, if_pos h2] at h
        simp at h
      · rw [if_neg h0, if_neg h2] at h
        have hout : runBenchmarkOk q t models j aud mn eO vO rand = out := by
          injection h
        subst hout
        have hprog : (runBenchmarkOk q t models j aud mn eO vO rand).progress =
            (List.range (2 * models.length)).map
              (fun i => (i + 1, models.length * 2)) := by
          unfold runBenchmarkOk
          rw [benchLoop_progress]
          apply List.map_congr_left
          intro i _
          simp
        refine ⟨hprog, ?_⟩
        rw [hprog, List.chain'_map]
        have hpw : (List.range (2 * models.length)).Pairwise (· < ·) :=
          List.pairwise_lt_range _
        exact (hpw.imp (fun hab => by omega)).chain'
  · intro qts models ws ts aud mn qO eO vO out h
    simp only [runBulkBenchmark] at h
    by_cases hq : (parseQueries qts).length = 0
    · simp [hq] at h
    · by_cases hm : models.length = 0
      · rw [if_neg hq, if_pos hm] at h
        simp at h
      · by_cases hw : jsTrim ws = ""
        · rw [if_neg hq, if_neg hm, if_pos hw] at h
          simp at h
        · rw [if_neg hq, if_neg hm, if_neg hw] at h
          have hout : runBulkOk (parseQueries qts) models (jsTrim ws) ts aud
              mn qO eO vO = out := by
            injection h
          subst hout
          constructor
          · exact bulkQueriesRun_progress_chain qO eO vO (jsTrim ws) ts aud
              models _ 0 (parseQueries qts)
          · intro p hp
            obtain ⟨h1, -, h3⟩ := bulkQueriesRun_progress_mem qO eO vO
              (jsTrim ws) ts aud models
              ((parseQueries qts).length * models.length) 0 (parseQueries qts)
              p hp
            exact ⟨h1, by simpa [Nat.mul_comm] using h3⟩

/-- C7 (witness): the amended claim at a concrete two-model single-query run
and a concrete bulk run whose query call fails. -/
theorem C7_witness :
    ((runBenchmarkOk "q" { columns := ["c"], rows := [["1"]] }
        ["model-a", "model-b"] false "developer" id (fun _ => .ok (some "e"))
        (fun _ => .ok none) (fun _ _ => 0)).progress =
      (List.range (2 * ["model-a", "model-b"].length)).map
        (fun i => (i + 1, ["model-a", "model-b"].length * 2)) ∧
     List.Chain' (fun a b : ℕ × ℕ => a.1 ≤ b.1)
       (runBenchmarkOk "q" { columns := ["c"], rows := [["1"]] }
         ["model-a", "model-b"] false "developer" id (fun _ => .ok (some "e"))
         (fun _ => .ok none) (fun _ _ => 0)).progress) ∧
    List.Chain' (fun a b : ℕ × ℕ => a.1 ≤ b.1)
      (runBulkOk (parseQueries ["q"]) ["model-a"] (jsTrim "ws") 24 "developer"
        id (fun _ => .error "down") (fun _ => .error "x")
        (fun _ => .error "y")).progress :=
  ⟨C7_progress_amended.1 "q" _ ["model-a", "model-b"] false "developer" id
    _ _ _ _ rfl,
   (C7_progress_amended.2 ["q"] ["model-a"] "ws" 24 "developer" id _ _ _ _
     rfl).1⟩

/-- An explanation one character over the 3000-character budget. -/
def longExplanationText : String := String.mk (List.replicate 3001 'a')

lemma longExplanationText_length : longExplanationText.length = 3001 := by
  show (List.replicate 3001 'a').length = 3001
  rw [List.length_replicate]

/-- C8 (counterexample): the bulk path sends the judge collaborator the
explanation exactly as returned by the explain call — a 3001-character
explanation arrives untruncated and unmarked, although `truncateExplanation`
would have changed it. -/
theorem C8_counterexample :
    (runBulkBenchmark ["q1"] ["model-a"] "ws" 24 "developer" id
        (fun _ => .ok [{ columns := ["c"], rows := [["1"]] }])
        (fun _ => .ok longExplanationText)
        (fun _ => .ok (some allThreeScores))).toOption.map
      (fun o => o.evalCalls.map (fun p => p.explanation)) =
      some [longExplanationText] ∧
    3000 < longExplanationText.length ∧
    truncateExplanation longExplanationText ≠ longExplanationText := by
  have h1 := longExplanationText_length
  refine ⟨rfl, ?_, ?_⟩
  · rw [h1]
    norm_num
  · intro hcontra
    have hlen := congrArg String.length hcontra
    have h2 : (truncateExplanation longExplanationText).length = 3015 := by
      unfold truncateExplanation
      rw [if_pos (by rw [h1]; norm_num)]
      rw [String.length_append]
      have hsub : (substringTo longExplanationText 3000).length = 3000 := by
        show (List.take 3000 (List.replicate 3001 'a')).length = 3000
        rw [List.length_take, List.length_replicate]
        omega
      have hmark : ("... [truncated]" : String).length = 15 := rfl
      rw [hsub, hmark]
    rw [h1, h2] at hlen
    exact absurd hlen (by norm_num)

/-- C8 (amended): in the single-query path, explanation text over 3000
characters is cut to exactly its first 3000 characters with the
`... [truncated]` marker appended (and left unchanged otherwise), every
judge payload carries a truncated explanation and at most the first 5 rows,
and every explain payload carries at most the first 10 rows; truncation is a
pure function of the input.  The bulk path performs no truncation (see the
counterexample). -/
theorem C8_truncation_amended :
    (∀ e : String, 3000 < e.length →
      truncateExplanation e = substringTo e 3000 ++ "... [truncated]") ∧
    (∀ e : String, e.length ≤ 3000 → truncateExplanation e = e) ∧
    (∀ (q : String) (t : Table) (models : List String) (aud : String)
      (mn : String → String)
      (eO : ExplainPayload → Except String (Option String))
      (vO : EvalPayload → Except String (Option ScoreVec))
      (rand : ℕ → Dimension → ℚ) (out : SingleLog),
      runBenchmark (some q) (some t) models true aud mn eO vO rand = .ok out →
      out.evalCalls = models.map (fun m =>
        evalPayloadFor (getModelExplanation eO m (currentTestCase q t aud))
          (currentTestCase q t aud) aud) ∧
      (∀ p ∈ out.evalCalls, p.testCase.rows.length ≤ 5 ∧
        ∃ e, p.explanation = truncateExplanation e) ∧
      (∀ p ∈ out.explainCalls, p.rows.length ≤ 10)) := by
  refine ⟨?_, ?_, ?_⟩
  · intro e h
    simp [truncateExplanation, h]
  · intro e h
    unfold truncateExplanation
    rw [if_neg (by omega)]
  · intro q t models aud mn eO vO rand out h
    simp only [runBenchmark] at h
    by_cases h0 : models.length = 0
    · simp [h0] at h
    · by_cases h2 : models.length < 2
      · rw [if_neg h0, if_pos h2] at h
        simp at h
      · rw [if_neg h0, if_neg h2] at h
        have hout : runBenchmarkOk q t models true aud mn eO vO rand = out := by
          injection h
        subst hout
        have hev : (runBenchmarkOk q t models true aud mn eO vO rand).evalCalls =
            models.map (fun m =>
              evalPayloadFor (getModelExplanation eO m (currentTestCase q t aud))
                (currentTestCase q t aud) aud) := by
          unfold runBenchmarkOk
          rw [benchLoop_evalCalls]
          simp
        refine ⟨hev, ?_, ?_⟩
        · intro p hp
          rw [hev] at hp
          rcases List.mem_map.mp hp with ⟨m, -, rfl⟩
          refine ⟨?_, ?_⟩
          · simp only [evalPayloadFor]
            exact List.length_take_le 5 _
          · exact ⟨getModelExplanation eO m (currentTestCase q t aud), rfl⟩
        · intro p hp
          have hex : (runBenchmarkOk q t models true aud mn eO vO rand).explainCalls =
              models.map (explainPayloadFor (currentTestCase q t aud)) := by
            unfold runBenchmarkOk
            rw [benchLoop_explainCalls]
          rw [hex] at hp
          rcases List.mem_map.mp hp with ⟨m, -, rfl⟩
          simp only [explainPayloadFor]
          exact List.length_take_le 10 _

/-- C8 (witness): the amended claim at a 3001-character explanation, a short
explanation, and a concrete two-model run. -/
theorem C8_witness :
    (truncateExplanation longExplanationText =
      substringTo longExplanationText 3000 ++ "... [truncated]") ∧
    (truncateExplanation "short" = "short") ∧
    ((runBenchmarkOk "q" { columns := ["c"], rows := [["1"]] }
        ["model-a", "model-b"] true "developer" id (fun _ => .ok (some "e"))
        (fun _ => .ok none) (fun _ _ => 0)).evalCalls =
      ["model-a", "model-b"].map (fun m =>
        evalPayloadFor (getModelExplanation (fun _ => .ok (some "e")) m
            (currentTestCase "q" { columns := ["c"], rows := [["1"]] }
              "developer"))
          (currentTestCase "q" { columns := ["c"], rows := [["1"]] }
            "developer") "developer")) :=
  ⟨C8_truncation_amended.1 longExplanationText
     (by simp [longExplanationText_length]),
   C8_truncation_amended.2.1 "short" (by decide),
   (C8_truncation_amended.2.2 "q" _ ["model-a", "model-b"] "developer" id
     _ _ _ _ rfl).1⟩

/-- C10 (witness): the empty score vector with the default weights yields
`0`. -/
theorem C10_witness :
    calculateWeightedScore
      { faithfulness := none, structure' := none, clarity := none,
        analysisDepth := none, contextAccuracy := none,
        actionability := none, conciseness := none } currentWeightsInit = 0 :=
  C10_weighted_score_total_safe.1 _ currentWeightsInit
    (by simp [weightedScoreWeightSum, Dimension.all, ScoreVec.get])

end LogBench
